import Mathlib

/-!
Shallow embedding of the ISLE shibboleth CGI script (src/etc/shibboleth/isle.py)
and verification of its specification.

Modelling conventions:
* Python 2 `str` values are byte sequences; we model them as `List Nat`
  with each entry a byte (below 256).
* The attribute dictionary is an association list with Python dict
  assignment semantics (replace in place if the key exists, else append).
* `os.environ` is a partial map `String -> Option ByteStr`; a `KeyError`
  on a missing key is a `none` result.
* The secret file read is a parameter `adata : Option ByteStr`
  (`none` when the resource cannot be read, `some raw` when its whole
  content is `raw`).
* `time.time()` is modelled at microsecond resolution as a `Nat` count of
  microseconds since the epoch; the Python `"{:f}".format` rendering with
  six fractional digits is `formatTimeF`.
* `os.urandom(SALT_LENGTH)` is a parameter `rand : List Nat` of bytes.
* SHA-256 is implemented from FIPS 180-4 over byte lists, with 32-bit
  words as `Nat` reduced modulo `2 ^ 32`.
-/

namespace Isle

/-- Byte strings: a Python 2 `str` is a sequence of bytes. -/
abbrev ByteStr := List Nat

/-- ASCII bytes of a Lean string literal, for the constants in the script. -/
def bytes (s : String) : ByteStr := s.data.map Char.toNat

/-- The attribute dictionary of the script: keys to byte-string values. -/
abbrev Attrs := List (String × ByteStr)

/-- Dictionary lookup, as in `attrs[k]` (a missing key is `none`). -/
def getAttr : Attrs → String → Option ByteStr
  | [], _ => none
  | (k', v') :: rest, k => if k' = k then some v' else getAttr rest k

/-- Dictionary assignment `attrs[k] = v`: replace in place or append. -/
def setAttr : Attrs → String → ByteStr → Attrs
  | [], k, v => [(k, v)]
  | (k', v') :: rest, k, v =>
    if k' = k then (k, v) :: rest else (k', v') :: setAttr rest k v

/-! ## SHA-256 (FIPS 180-4), over byte lists, words as `Nat` mod `2 ^ 32` -/

/-- The 32-bit word modulus. -/
def M32 : Nat := 4294967296

/-- Right rotation of a 32-bit word. -/
def rotr (n x : Nat) : Nat := (x >>> n) ||| ((x <<< (32 - n)) % M32)

/-- Bitwise complement within 32 bits. -/
def compl32 (x : Nat) : Nat := x ^^^ 4294967295

/-- The choice function of FIPS 180-4. -/
def chWord (x y z : Nat) : Nat := (x &&& y) ^^^ (compl32 x &&& z)

/-- The majority function of FIPS 180-4. -/
def majWord (x y z : Nat) : Nat := (x &&& y) ^^^ (x &&& z) ^^^ (y &&& z)

/-- The big Sigma-0 function. -/
def bsig0 (x : Nat) : Nat := rotr 2 x ^^^ rotr 13 x ^^^ rotr 22 x

/-- The big Sigma-1 function. -/
def bsig1 (x : Nat) : Nat := rotr 6 x ^^^ rotr 11 x ^^^ rotr 25 x

/-- The small sigma-0 function. -/
def ssig0 (x : Nat) : Nat := rotr 7 x ^^^ rotr 18 x ^^^ (x >>> 3)

/-- The small sigma-1 function. -/
def ssig1 (x : Nat) : Nat := rotr 17 x ^^^ rotr 19 x ^^^ (x >>> 10)

/-- The 64 round constants of SHA-256. -/
def sha256K : List Nat :=
  [1116352408, 1899447441, 3049323471, 3921009573,
   961987163, 1508970993, 2453635748, 2870763221,
   3624381080, 310598401, 607225278, 1426881987,
   1925078388, 2162078206, 2614888103, 3248222580,
   3835390401, 4022224774, 264347078, 604807628,
   770255983, 1249150122, 1555081692, 1996064986,
   2554220882, 2821834349, 2952996808, 3210313671,
   3336571891, 3584528711, 113926993, 338241895,
   666307205, 773529912, 1294757372, 1396182291,
   1695183700, 1986661051, 2177026350, 2456956037,
   2730485921, 2820302411, 3259730800, 3345764771,
   3516065817, 3600352804, 4094571909, 275423344,
   430227734, 506948616, 659060556, 883997877,
   958139571, 1322822218, 1537002063, 1747873779,
   1955562222, 2024104815, 2227730452, 2361852424,
   2428436474, 2756734187, 3204031479, 3329325298]

/-- The initial hash value of SHA-256. -/
def sha256H0 : List Nat :=
  [1779033703, 3144134277, 1013904242, 2773480762,
   1359893119, 2600822924, 528734635, 1541459225]

/-- One more word of the message schedule, from the reversed schedule so far. -/
def nextW (ws : List Nat) : Nat :=
  (ssig1 (ws.getD 1 0) + ws.getD 6 0 + ssig0 (ws.getD 14 0) + ws.getD 15 0) % M32

/-- Extend the reversed message schedule by `n` words. -/
def extendW (ws : List Nat) : Nat → List Nat
  | 0 => ws
  | n + 1 => extendW (nextW ws :: ws) n

/-- The 64-word message schedule of a 16-word block. -/
def messageSchedule (block : List Nat) : List Nat :=
  (extendW block.reverse 48).reverse

/-- One round of the SHA-256 compression function on the state `[a..h]`. -/
def sha256Round (k w : Nat) : List Nat → List Nat
  | [a, b, c, d, e, f, g, h] =>
    let t1 := (h + bsig1 e + chWord e f g + k + w) % M32
    let t2 := (bsig0 a + majWord a b c) % M32
    [(t1 + t2) % M32, a, b, c, (d + t1) % M32, e, f, g]
  | s => s

/-- Fold the 64 rounds over the round constants and the schedule. -/
def sha256Rounds : List Nat → List Nat → List Nat → List Nat
  | s, k :: ks, w :: ws => sha256Rounds (sha256Round k w s) ks ws
  | s, _, _ => s

/-- Process one 16-word block, updating the eight-word hash state. -/
def processBlock (h : List Nat) (block : List Nat) : List Nat :=
  let s := sha256Rounds h sha256K (messageSchedule block)
  (h.zip s).map (fun p => (p.1 + p.2) % M32)

/-- Process a word stream sixteen words at a time. -/
def processBlocks (h : List Nat) : List Nat → List Nat
  | w0 :: w1 :: w2 :: w3 :: w4 :: w5 :: w6 :: w7 ::
    w8 :: w9 :: w10 :: w11 :: w12 :: w13 :: w14 :: w15 :: rest =>
    processBlocks
      (processBlock h [w0, w1, w2, w3, w4, w5, w6, w7,
                       w8, w9, w10, w11, w12, w13, w14, w15]) rest
  | _ => h

/-- Big-endian eight-byte rendering of a length in bits. -/
def be8 (n : Nat) : List Nat :=
  [n / 72057594037927936 % 256, n / 281474976710656 % 256,
   n / 1099511627776 % 256, n / 4294967296 % 256,
   n / 16777216 % 256, n / 65536 % 256, n / 256 % 256, n % 256]

/-- SHA-256 padding: append `0x80`, zeros, and the 64-bit bit length. -/
def sha256Pad (msg : List Nat) : List Nat :=
  let l := msg.length
  let z := (120 - ((l + 1) % 64)) % 64
  msg ++ 128 :: List.replicate z 0 ++ be8 (8 * l)

/-- Pack a byte stream into big-endian 32-bit words, four bytes at a time. -/
def packWords : List Nat → List Nat
  | b0 :: b1 :: b2 :: b3 :: rest =>
    (((b0 * 256 + b1) * 256 + b2) * 256 + b3) :: packWords rest
  | _ => []

/-- Big-endian four-byte rendering of a 32-bit word. -/
def be4 (w : Nat) : List Nat :=
  [w / 16777216 % 256, w / 65536 % 256, w / 256 % 256, w % 256]

/-- SHA-256 of a byte string, as the 32-byte digest. -/
def sha256 (msg : List Nat) : List Nat :=
  ((processBlocks sha256H0 (packWords (sha256Pad msg))).map be4).flatten

/-! ## Hexadecimal rendering (Python 2 `.encode('hex')`, lowercase) -/

/-- The lowercase hexadecimal digit byte for a value below 16. -/
def hexDigit (n : Nat) : Nat := if n < 10 then 48 + n else 87 + n

/-- Lowercase hexadecimal rendering of a byte string, two digits per byte. -/
def hexEncode : List Nat → ByteStr
  | [] => []
  | b :: rest => hexDigit (b / 16) :: hexDigit (b % 16) :: hexEncode rest

/-! ## URL-safe base64 (Python `base64.urlsafe_b64encode`, padding kept) -/

/-- The URL-safe base64 alphabet: `A`-`Z`, `a`-`z`, `0`-`9`, `-`, `_`. -/
def b64char (n : Nat) : Nat :=
  if n < 26 then 65 + n
  else if n < 52 then 97 + (n - 26)
  else if n < 62 then 48 + (n - 52)
  else if n = 62 then 45
  else 95

/-- URL-safe base64 encoding with `=` padding retained. -/
def b64encode : List Nat → List Nat
  | b0 :: b1 :: b2 :: rest =>
    b64char (b0 / 4) ::
    b64char ((b0 % 4) * 16 + b1 / 16) ::
    b64char ((b1 % 16) * 4 + b2 / 64) ::
    b64char (b2 % 64) :: b64encode rest
  | [b0, b1] =>
    [b64char (b0 / 4), b64char ((b0 % 4) * 16 + b1 / 16),
     b64char ((b1 % 16) * 4), 61]
  | [b0] => [b64char (b0 / 4), b64char ((b0 % 4) * 16), 61, 61]
  | [] => []

/-- The value of a URL-safe base64 alphabet byte. -/
def b64val (c : Nat) : Nat :=
  if 65 ≤ c ∧ c ≤ 90 then c - 65
  else if 97 ≤ c ∧ c ≤ 122 then c - 97 + 26
  else if 48 ≤ c ∧ c ≤ 57 then c - 48 + 52
  else if c = 45 then 62
  else if c = 95 then 63
  else 0

/-- URL-safe base64 decoding, honouring `=` padding. -/
def b64decode : List Nat → List Nat
  | c0 :: c1 :: c2 :: c3 :: rest =>
    if c2 = 61 then [b64val c0 * 4 + b64val c1 / 16]
    else if c3 = 61 then
      [b64val c0 * 4 + b64val c1 / 16, (b64val c1 % 16) * 16 + b64val c2 / 4]
    else
      (b64val c0 * 4 + b64val c1 / 16) ::
      ((b64val c1 % 16) * 16 + b64val c2 / 4) ::
      ((b64val c2 % 4) * 64 + b64val c3) :: b64decode rest
  | _ => []

/-! ## Decimal rendering of the timestamp (the Python format `:f`) -/

/-- Decimal digits of a natural number, with fuel (the fuel never runs out
when it is at least the digit count). -/
def decAux : Nat → Nat → ByteStr
  | 0, _ => []
  | fuel + 1, n => if n < 10 then [48 + n] else decAux fuel (n / 10) ++ [48 + n % 10]

/-- Decimal rendering of a natural number. -/
def natToDec (n : Nat) : ByteStr := decAux (n + 1) n

/-- Zero-padded six-digit rendering of a value below one million. -/
def pad6 (n : Nat) : ByteStr :=
  List.replicate (6 - (natToDec n).length) 48 ++ natToDec n

/-- Rendering of a timestamp of `t` microseconds as the Python `:f` format:
the integral seconds, a dot, and exactly six fractional digits. -/
def formatTimeF (t : Nat) : ByteStr :=
  natToDec (t / 1000000) ++ 46 :: pad6 (t % 1000000)

/-! ## The script itself -/

/-- Number of random salt bytes (`SALT_LENGTH = 4`). -/
def SALT_LENGTH : Nat := 4

/-- The fixed redirect base URL of the script. -/
def REDIRECT_TARGET : String := "https://isle.stat.cmu.edu/#/shibboleth"

/-- Python `str.strip` whitespace test. -/
def isSpaceByte (c : Nat) : Bool :=
  c = 32 || c = 9 || c = 10 || c = 13 || c = 11 || c = 12

/-- Python `str.strip`: drop leading and trailing whitespace bytes. -/
def pyStrip (b : ByteStr) : ByteStr :=
  ((b.dropWhile isSpaceByte).reverse.dropWhile isSpaceByte).reverse

/-- The function `read_secret`: read the whole `adata` resource and strip
surrounding whitespace; `none` models an unreadable resource (IOError). -/
def read_secret (adata : Option ByteStr) : Option ByteStr :=
  adata.map pyStrip

/-- The function `extract_saml_attrs`: reads the three mandatory headers
(a missing one raises, modelled as `none`) and the optional query string
from the ambient `environ` (`os.environ`); the `env` argument is unused,
exactly as in the source. -/
def extract_saml_attrs (environ : String → Option ByteStr)
    (env : String → Option ByteStr) : Option Attrs :=
  match environ "HTTP_EPPN", environ "HTTP_DISPLAYNAME",
        environ "HTTP_AFFILIATION" with
  | some e, some d, some a =>
    some [("eppn", e), ("displayName", d), ("affiliation", a),
          ("url", (environ "QUERY_STRING").getD [])]
  | _, _, _ => none

/-- The function `add_instance_attrs`: store the formatted current time and
the hex-rendered random salt; `now` is the clock reading in microseconds and
`rand` the bytes returned by `os.urandom(SALT_LENGTH)`. -/
def add_instance_attrs (now : Nat) (rand : List Nat) (attrs : Attrs) : Attrs :=
  setAttr (setAttr attrs "time" (formatTimeF now)) "salt" (hexEncode rand)

/-- The canonical string of `add_token`: the fields in fixed order separated
by the literal spacer, ending with the fixed suffix. -/
def canonicalString (tme slt secret eppn displayName affiliation : ByteStr) :
    ByteStr :=
  tme ++ bytes " :: " ++ slt ++ bytes " :: " ++ secret ++ bytes " :: " ++
  eppn ++ bytes " :: " ++ displayName ++ bytes " :: " ++ affiliation ++
  bytes " :: ISLE ROCKS!"

/-- The function `add_token`: read the secret, interpolate the canonical
pattern from the attribute map, and store the lowercase-hex SHA-256 digest
under `token`. Any missing piece (unreadable secret resource, missing key
for the format pattern) is a raised exception, modelled as `none`. -/
def add_token (adata : Option ByteStr) (attrs : Attrs) : Option Attrs :=
  match read_secret adata, getAttr attrs "time", getAttr attrs "salt",
        getAttr attrs "eppn", getAttr attrs "displayName",
        getAttr attrs "affiliation" with
  | some secret, some tme, some slt, some e, some d, some a =>
    some (setAttr attrs "token"
      (hexEncode (sha256 (canonicalString tme slt secret e d a))))
  | _, _, _, _, _, _ => none

/-- The function `encode_attributes`: URL-safe base64 encode the four claim
fields and reassign `salt` and `token` to themselves, as the source does. -/
def encode_attributes (attrs : Attrs) : Option Attrs :=
  match getAttr attrs "eppn", getAttr attrs "displayName",
        getAttr attrs "affiliation", getAttr attrs "url",
        getAttr attrs "salt", getAttr attrs "token" with
  | some e, some d, some a, some u, some slt, some tok =>
    some (setAttr (setAttr (setAttr (setAttr (setAttr (setAttr attrs
      "eppn" (b64encode e))
      "displayName" (b64encode d))
      "affiliation" (b64encode a))
      "url" (b64encode u))
      "salt" slt)
      "token" tok)
  | _, _, _, _, _, _ => none

/-- The function `query_string`: interpolate the seven parameters, in the
fixed order of the format string, from the attribute map. -/
def query_string (attrs : Attrs) : Option ByteStr :=
  match getAttr attrs "token", getAttr attrs "time", getAttr attrs "salt",
        getAttr attrs "eppn", getAttr attrs "displayName",
        getAttr attrs "affiliation", getAttr attrs "url" with
  | some tok, some tme, some slt, some e, some d, some a, some u =>
    some (bytes "token=" ++ tok ++ bytes "&time=" ++ tme ++
          bytes "&salt=" ++ slt ++ bytes "&eppn=" ++ e ++
          bytes "&name=" ++ d ++ bytes "&affil=" ++ a ++
          bytes "&url=" ++ u)
  | _, _, _, _, _, _, _ => none

/-- The redirect URL of the module body: the fixed base target, a question
mark, and the query string interpolated from the request data. -/
def redirect_url (attrs : Attrs) : Option ByteStr :=
  (query_string attrs).map fun q => bytes REDIRECT_TARGET ++ bytes "?" ++ q

/-- The module body: the full pipeline from the environment, the secret
resource, the clock and the random bytes to the redirect URL handed to
`redirected_output` (or `none` when an exception aborts the script before
any redirect is emitted). -/
def main_run (environ : String → Option ByteStr) (adata : Option ByteStr)
    (now : Nat) (rand : List Nat) : Option ByteStr :=
  (extract_saml_attrs environ environ).bind fun saml_attrs =>
  (add_token adata (add_instance_attrs now rand saml_attrs)).bind
    fun with_token =>
  (encode_attributes with_token).bind fun request_data =>
  redirect_url request_data

/-! ## Byte-class predicates and query splitting, for the statements -/

/-- Byte predicate: an ASCII decimal digit. -/
def isDigitByte (c : Nat) : Bool := 48 ≤ c && c ≤ 57

/-- Byte predicate: a lowercase hexadecimal digit. -/
def isLowerHexByte (c : Nat) : Bool := isDigitByte c || (97 ≤ c && c ≤ 102)

/-- Byte predicate: a character of the fixed-point time rendering, a digit
or the dot. -/
def isTimeByte (c : Nat) : Bool := isDigitByte c || c = 46

/-- Byte predicate: the URL-safe base64 alphabet together with the padding
byte `=`. -/
def isB64Byte (c : Nat) : Bool :=
  (65 ≤ c && c ≤ 90) || (97 ≤ c && c ≤ 122) || isDigitByte c ||
  c = 45 || c = 95 || c = 61

/-- Split a byte string on the ampersand byte, as a query string splits
into its components. -/
def splitAmp : ByteStr → List ByteStr
  | [] => [[]]
  | c :: rest =>
    if c = 38 then [] :: splitAmp rest
    else
      match splitAmp rest with
      | s :: ss => (c :: s) :: ss
      | [] => [[c]]

/-- A concrete CGI environment holding the three identity headers and the
query string. -/
def mkEnviron (e d a u : ByteStr) : String → Option ByteStr := fun k =>
  if k = "HTTP_EPPN" then some e
  else if k = "HTTP_DISPLAYNAME" then some d
  else if k = "HTTP_AFFILIATION" then some a
  else if k = "QUERY_STRING" then some u
  else none

/-- A sample environment for concrete evaluations. -/
def testEnviron : String → Option ByteStr :=
  mkEnviron (bytes "jdoe@example.edu") (bytes "Jane Doe") (bytes "staff")
    (bytes "q=1")

/-- An environment with no headers at all. -/
def emptyEnviron : String → Option ByteStr := fun _ => none

/-- A sample attribute map as it stands before token derivation. -/
def sampleClaims : Attrs :=
  [("time", bytes "1700000000.000000"), ("salt", bytes "deadbeef"),
   ("eppn", bytes "jdoe@example.edu"), ("displayName", bytes "Jane Doe"),
   ("affiliation", bytes "staff")]

/-- A sample fully populated attribute map. -/
def sampleFull : Attrs :=
  sampleClaims ++ [("url", bytes "q=1"), ("token", bytes "ab12")]

/-- The sample map with one extra, unrelated key. -/
def sampleFullExtra : Attrs := sampleFull ++ [("extra", bytes "zz")]

/-- The sample map after URL-safe encoding of the four claim fields. -/
def encodedSample : Attrs :=
  [("time", bytes "1700000000.000000"), ("salt", bytes "deadbeef"),
   ("eppn", bytes "amRvZUBleGFtcGxlLmVkdQ=="),
   ("displayName", bytes "SmFuZSBEb2U="), ("affiliation", bytes "c3RhZmY="),
   ("url", bytes "cT0x"), ("token", bytes "ab12")]

/-! ## Dictionary lemmas -/

/-- Reading the key just assigned returns the assigned value. -/
theorem getAttr_setAttr_self (m : Attrs) (k : String) (v : ByteStr) :
    getAttr (setAttr m k v) k = some v := by
  induction m with
  | nil => simp [setAttr, getAttr]
  | cons p rest ih =>
    obtain ⟨k0, v0⟩ := p
    by_cases h0 : k0 = k
    · simp [setAttr, getAttr, h0]
    · simp [setAttr, getAttr, h0, ih]

/-- Assignment leaves every other key unchanged. -/
theorem getAttr_setAttr_ne (m : Attrs) (k k' : String) (v : ByteStr)
    (h : k ≠ k') : getAttr (setAttr m k v) k' = getAttr m k' := by
  induction m with
  | nil => simp [setAttr, getAttr, h]
  | cons p rest ih =>
    obtain ⟨k0, v0⟩ := p
    by_cases h0 : k0 = k
    · subst h0
      simp [setAttr, getAttr, h, ih]
    · simp [setAttr, getAttr, h0, ih]

/-! ## Hexadecimal and digit lemmas -/

/-- Hex rendering of a value below 16 is a lowercase hex digit byte. -/
theorem hexDigit_lower : ∀ m < 16, isLowerHexByte (hexDigit m) = true := by
  decide

/-- Hex rendering doubles the length. -/
theorem hexEncode_length (bs : List Nat) :
    (hexEncode bs).length = 2 * bs.length := by
  induction bs with
  | nil => simp [hexEncode]
  | cons b rest ih =>
    simp [hexEncode, ih]
    omega

/-- Hex rendering of bytes emits only lowercase hex digit bytes. -/
theorem hexEncode_lower (bs : List Nat) (h : ∀ b ∈ bs, b < 256) :
    ∀ c ∈ hexEncode bs, isLowerHexByte c = true := by
  induction bs with
  | nil => simp [hexEncode]
  | cons b rest ih =>
    intro c hc
    have hb : b < 256 := h b (by simp)
    simp only [hexEncode, List.mem_cons] at hc
    rcases hc with rfl | rfl | h1
    · exact hexDigit_lower _ (by omega)
    · exact hexDigit_lower _ (by omega)
    · exact ih (fun x hx => h x (by simp [hx])) c h1

/-- A lowercase hex digit byte is not an ampersand. -/
theorem lowerHex_ne_amp (c : Nat) (h : isLowerHexByte c = true) : c ≠ 38 := by
  simp [isLowerHexByte, isDigitByte] at h
  omega

/-- Every byte of the fuel-based decimal rendering is a digit byte. -/
theorem decAux_digits (fuel : Nat) :
    ∀ n, ∀ c ∈ decAux fuel n, isDigitByte c = true := by
  induction fuel with
  | zero => simp [decAux]
  | succ fuel ih =>
    intro n c hc
    by_cases h : n < 10
    · simp [decAux, h] at hc
      subst hc
      simp [isDigitByte]
      omega
    · simp [decAux, h] at hc
      rcases hc with h1 | h1
      · exact ih _ c h1
      · subst h1
        simp [isDigitByte]
        omega

/-- The decimal rendering of a value below `10 ^ k` has at most `k`
digits, for positive `k`. -/
theorem decAux_length_le (fuel : Nat) :
    ∀ n k, n < 10 ^ k → 1 ≤ k → (decAux fuel n).length ≤ k := by
  induction fuel with
  | zero =>
    intro n k _ _
    simp [decAux]
  | succ fuel ih =>
    intro n k hn hk
    by_cases h : n < 10
    · simp [decAux, h]
      exact hk
    · have hk2 : 2 ≤ k := by
        rcases Nat.lt_or_ge k 2 with h2 | h2
        · have hk1 : k = 1 := by omega
          subst hk1
          norm_num at hn
          omega
        · exact h2
      have hpow : 10 ^ (k - 1) * 10 = 10 ^ k := by
        rw [← pow_succ]
        congr 1
        omega
      have hdiv : n / 10 < 10 ^ (k - 1) := by
        rw [Nat.div_lt_iff_lt_mul (by norm_num)]
        omega
      have := ih (n / 10) (k - 1) hdiv (by omega)
      simp [decAux, h]
      omega

/-- The decimal rendering is never empty. -/
theorem natToDec_ne_nil (n : Nat) : natToDec n ≠ [] := by
  by_cases h : n < 10 <;> simp [natToDec, decAux, h]

/-- Every byte of the decimal rendering is a digit byte. -/
theorem natToDec_digits (n : Nat) : ∀ c ∈ natToDec n, isDigitByte c = true :=
  decAux_digits _ n

/-- The zero-padded fraction rendering has exactly six digits for values
below one million. -/
theorem pad6_length (m : Nat) (h : m < 1000000) : (pad6 m).length = 6 := by
  have hp : (10 : Nat) ^ 6 = 1000000 := by norm_num
  have h6 : (natToDec m).length ≤ 6 :=
    decAux_length_le _ m 6 (by omega) (by omega)
  simp [pad6]
  omega

/-- Every byte of the zero-padded fraction rendering is a digit byte. -/
theorem pad6_digits (m : Nat) : ∀ c ∈ pad6 m, isDigitByte c = true := by
  intro c hc
  simp [pad6] at hc
  rcases hc with ⟨-, rfl⟩ | h1
  · simp [isDigitByte]
  · exact natToDec_digits _ c h1

/-- Every byte of the time rendering is a digit or the dot. -/
theorem formatTimeF_bytes (t : Nat) :
    ∀ c ∈ formatTimeF t, isTimeByte c = true := by
  intro c hc
  simp only [formatTimeF, List.mem_append, List.mem_cons] at hc
  rcases hc with h1 | rfl | h1
  · have := natToDec_digits _ c h1
    simp [isTimeByte, this]
  · simp [isTimeByte]
  · have := pad6_digits _ c h1
    simp [isTimeByte, this]

/-- A time byte is not an ampersand. -/
theorem timeByte_ne_amp (c : Nat) (h : isTimeByte c = true) : c ≠ 38 := by
  simp [isTimeByte, isDigitByte] at h
  rcases h with h | h <;> omega

/-! ## Shape of the SHA-256 digest -/

/-- A compression round keeps the length of the state. -/
theorem sha256Round_length (k w : Nat) (s : List Nat) :
    (sha256Round k w s).length = s.length := by
  unfold sha256Round
  split <;> simp

/-- The round fold keeps the length of the state. -/
theorem sha256Rounds_length (ks : List Nat) :
    ∀ ws s, (sha256Rounds s ks ws).length = s.length := by
  induction ks with
  | nil =>
    intro ws s
    cases ws <;> rfl
  | cons k ks ih =>
    intro ws s
    cases ws with
    | nil => rfl
    | cons w ws => simp [sha256Rounds, ih, sha256Round_length]

/-- Processing one block keeps the eight-word state size. -/
theorem processBlock_length (h b : List Nat) (hh : h.length = 8) :
    (processBlock h b).length = 8 := by
  simp [processBlock, sha256Rounds_length, hh]

/-- Processing any word stream keeps the eight-word state size. -/
theorem processBlocks_length (h ws : List Nat) (hh : h.length = 8) :
    (processBlocks h ws).length = 8 := by
  induction h, ws using processBlocks.induct with
  | case1 h w0 w1 w2 w3 w4 w5 w6 w7 w8 w9 w10 w11 w12 w13 w14 w15 rest ih =>
    rw [processBlocks]
    exact ih (processBlock_length _ _ hh)
  | case2 t h hne =>
    rw [processBlocks.eq_def]
    split
    · rename_i w0 w1 w2 w3 w4 w5 w6 w7 w8 w9 w10 w11 w12 w13 w14 w15 rest
      exact absurd rfl (hne w0 w1 w2 w3 w4 w5 w6 w7 w8 w9 w10 w11 w12 w13 w14 w15 rest)
    · exact hh

/-- Flattening four-byte renderings yields four bytes per word. -/
theorem flatten_be4_length (l : List Nat) :
    ((l.map be4).flatten).length = 4 * l.length := by
  induction l with
  | nil => simp
  | cons w l ih =>
    simp [be4, ih]
    omega

/-- The SHA-256 digest has 32 bytes. -/
theorem sha256_length (msg : List Nat) : (sha256 msg).length = 32 := by
  have h8 : (processBlocks sha256H0 (packWords (sha256Pad msg))).length = 8 :=
    processBlocks_length _ _ (by rfl)
  unfold sha256
  rw [flatten_be4_length, h8]

/-- Every entry of the SHA-256 digest is a byte. -/
theorem sha256_bytes_lt (msg : List Nat) : ∀ b ∈ sha256 msg, b < 256 := by
  intro b hb
  simp only [sha256, List.mem_flatten, List.mem_map] at hb
  obtain ⟨bs, ⟨w, -, rfl⟩, hbbs⟩ := hb
  simp [be4] at hbbs
  rcases hbbs with rfl | rfl | rfl | rfl <;> omega

/-! ## URL-safe base64 lemmas -/

/-- The alphabet byte of a value below 64 is in the URL-safe alphabet. -/
theorem b64char_alphabet : ∀ m < 64, isB64Byte (b64char m) = true := by
  decide

/-- The alphabet byte of a value below 64 is never the padding byte. -/
theorem b64char_ne_pad : ∀ m < 64, b64char m ≠ 61 := by
  decide

/-- Reading an alphabet byte back inverts the alphabet map below 64. -/
theorem b64val_b64char : ∀ m < 64, b64val (b64char m) = m := by
  decide

/-- A URL-safe base64 byte, padding included, is not an ampersand. -/
theorem b64Byte_ne_amp (c : Nat) (h : isB64Byte c = true) : c ≠ 38 := by
  simp [isB64Byte, isDigitByte] at h
  omega

/-- Encoding bytes yields only URL-safe alphabet and padding bytes. -/
theorem b64encode_alphabet (bs : List Nat) (h : ∀ b ∈ bs, b < 256) :
    ∀ c ∈ b64encode bs, isB64Byte c = true := by
  induction bs using b64encode.induct with
  | case1 b0 b1 b2 rest ih =>
    intro c hc
    have h0 : b0 < 256 := h b0 (by simp)
    have h1 : b1 < 256 := h b1 (by simp)
    have h2 : b2 < 256 := h b2 (by simp)
    simp only [b64encode, List.mem_cons] at hc
    rcases hc with rfl | rfl | rfl | rfl | h3
    · exact b64char_alphabet _ (by omega)
    · exact b64char_alphabet _ (by omega)
    · exact b64char_alphabet _ (by omega)
    · exact b64char_alphabet _ (by omega)
    · exact ih (fun x hx => h x (by simp [hx])) c h3
  | case2 b0 b1 =>
    intro c hc
    have h0 : b0 < 256 := h b0 (by simp)
    have h1 : b1 < 256 := h b1 (by simp)
    simp only [b64encode, List.mem_cons, List.not_mem_nil, or_false] at hc
    rcases hc with rfl | rfl | rfl | rfl
    · exact b64char_alphabet _ (by omega)
    · exact b64char_alphabet _ (by omega)
    · exact b64char_alphabet _ (by omega)
    · rfl
  | case3 b0 =>
    intro c hc
    have h0 : b0 < 256 := h b0 (by simp)
    simp only [b64encode, List.mem_cons, List.not_mem_nil, or_false] at hc
    rcases hc with rfl | rfl | rfl | rfl
    · exact b64char_alphabet _ (by omega)
    · exact b64char_alphabet _ (by omega)
    · rfl
    · rfl
  | case4 =>
    intro c hc
    simp [b64encode] at hc

/-- Decoding the URL-safe encoding of a byte string recovers it exactly. -/
theorem b64_roundtrip (bs : List Nat) (h : ∀ b ∈ bs, b < 256) :
    b64decode (b64encode bs) = bs := by
  induction bs using b64encode.induct with
  | case1 b0 b1 b2 rest ih =>
    have h0 : b0 < 256 := h b0 (by simp)
    have h1 : b1 < 256 := h b1 (by simp)
    have h2 : b2 < 256 := h b2 (by simp)
    have hrest := ih (fun x hx => h x (by simp [hx]))
    have hc2 : b64char ((b1 % 16) * 4 + b2 / 64) ≠ 61 :=
      b64char_ne_pad _ (by omega)
    have hc3 : b64char (b2 % 64) ≠ 61 := b64char_ne_pad _ (by omega)
    simp only [b64encode, b64decode, if_neg hc2, if_neg hc3]
    rw [b64val_b64char (b0 / 4) (by omega),
      b64val_b64char ((b0 % 4) * 16 + b1 / 16) (by omega),
      b64val_b64char ((b1 % 16) * 4 + b2 / 64) (by omega),
      b64val_b64char (b2 % 64) (by omega), hrest]
    simp only [List.cons.injEq]
    exact ⟨by omega, by omega, by omega, trivial⟩
  | case2 b0 b1 =>
    have h0 : b0 < 256 := h b0 (by simp)
    have h1 : b1 < 256 := h b1 (by simp)
    have hc2 : b64char ((b1 % 16) * 4) ≠ 61 := b64char_ne_pad _ (by omega)
    simp only [b64encode, b64decode, if_neg hc2, eq_self_iff_true, if_true]
    rw [b64val_b64char (b0 / 4) (by omega),
      b64val_b64char ((b0 % 4) * 16 + b1 / 16) (by omega),
      b64val_b64char ((b1 % 16) * 4) (by omega)]
    simp only [List.cons.injEq]
    exact ⟨by omega, by omega, trivial⟩
  | case3 b0 =>
    have h0 : b0 < 256 := h b0 (by simp)
    simp only [b64encode, b64decode, eq_self_iff_true, if_true]
    rw [b64val_b64char (b0 / 4) (by omega),
      b64val_b64char ((b0 % 4) * 16) (by omega)]
    simp only [List.cons.injEq]
    exact ⟨by omega, trivial⟩
  | case4 => rfl

/-! ## Query-string splitting lemmas -/

/-- Splitting never yields an empty component list. -/
theorem splitAmp_ne_nil (q : ByteStr) : splitAmp q ≠ [] := by
  cases q with
  | nil => simp [splitAmp]
  | cons c rest =>
    by_cases h : c = 38
    · simp [splitAmp, h]
    · simp only [splitAmp, if_neg h]
      cases hs : splitAmp rest <;> simp

/-- Splitting after an ampersand-free prefix maps the prefix onto the
head component. -/
theorem splitAmp_append (xs ys s : ByteStr) (ss : List ByteStr)
    (h : ∀ c ∈ xs, c ≠ 38) (hs : splitAmp ys = s :: ss) :
    splitAmp (xs ++ ys) = (xs ++ s) :: ss := by
  induction xs with
  | nil => simpa using hs
  | cons c xs ih =>
    have hc : c ≠ 38 := h c (by simp)
    have hxs := ih (fun x hx => h x (by simp [hx]))
    simp only [List.cons_append, splitAmp, if_neg hc, List.append_eq, hxs]

/-- Splitting an ampersand-free string yields that one component. -/
theorem splitAmp_free (xs : ByteStr) (h : ∀ c ∈ xs, c ≠ 38) :
    splitAmp xs = [xs] := by
  have happ := splitAmp_append xs [] [] [] h (by simp [splitAmp])
  simpa using happ

/-- Concatenating ampersand-free strings stays ampersand-free. -/
theorem ne_amp_append {xs ys : ByteStr} (hx : ∀ c ∈ xs, c ≠ 38)
    (hy : ∀ c ∈ ys, c ≠ 38) : ∀ c ∈ xs ++ ys, c ≠ 38 := by
  intro c hc
  rcases List.mem_append.mp hc with h | h
  · exact hx c h
  · exact hy c h

/-- Splitting one leading component off a query string. -/
theorem splitAmp_sep (k v rest : ByteStr) (hk : ∀ c ∈ k, c ≠ 38)
    (hv : ∀ c ∈ v, c ≠ 38) :
    splitAmp (k ++ (v ++ 38 :: rest)) = (k ++ v) :: splitAmp rest := by
  rw [← List.append_assoc]
  have happ := splitAmp_append (k ++ v) (38 :: rest) [] (splitAmp rest)
    (ne_amp_append hk hv) (by simp [splitAmp])
  simpa using happ

/-- The interpolated query string splits on ampersands into exactly the
seven components, in order, when the interpolated values are
ampersand-free. -/
theorem splitAmp_query (tok tme slt e d a u : ByteStr)
    (h1 : ∀ c ∈ tok, c ≠ 38) (h2 : ∀ c ∈ tme, c ≠ 38)
    (h3 : ∀ c ∈ slt, c ≠ 38) (h4 : ∀ c ∈ e, c ≠ 38)
    (h5 : ∀ c ∈ d, c ≠ 38) (h6 : ∀ c ∈ a, c ≠ 38)
    (h7 : ∀ c ∈ u, c ≠ 38) :
    splitAmp (bytes "token=" ++ tok ++ bytes "&time=" ++ tme ++
      bytes "&salt=" ++ slt ++ bytes "&eppn=" ++ e ++ bytes "&name=" ++ d ++
      bytes "&affil=" ++ a ++ bytes "&url=" ++ u) =
    [bytes "token=" ++ tok, bytes "time=" ++ tme, bytes "salt=" ++ slt,
     bytes "eppn=" ++ e, bytes "name=" ++ d, bytes "affil=" ++ a,
     bytes "url=" ++ u] := by
  have e1 : bytes "&time=" = 38 :: bytes "time=" := by decide
  have e2 : bytes "&salt=" = 38 :: bytes "salt=" := by decide
  have e3 : bytes "&eppn=" = 38 :: bytes "eppn=" := by decide
  have e4 : bytes "&name=" = 38 :: bytes "name=" := by decide
  have e5 : bytes "&affil=" = 38 :: bytes "affil=" := by decide
  have e6 : bytes "&url=" = 38 :: bytes "url=" := by decide
  simp only [List.append_assoc]
  rw [e1, e2, e3, e4, e5, e6]
  simp only [List.cons_append]
  rw [splitAmp_sep _ _ _ (by decide) h1]
  rw [splitAmp_sep _ _ _ (by decide) h2]
  rw [splitAmp_sep _ _ _ (by decide) h3]
  rw [splitAmp_sep _ _ _ (by decide) h4]
  rw [splitAmp_sep _ _ _ (by decide) h5]
  rw [splitAmp_sep _ _ _ (by decide) h6]
  rw [splitAmp_free _ (ne_amp_append (by decide) h7)]

/-! ## The claims -/

/-- C10: `extract_saml_attrs` ignores its `env` argument entirely: for any
two argument values and the same ambient process environment, the results
coincide, because the function body reads only `os.environ`. -/
theorem extract_ignores_arg_spec
    (environ env1 env2 : String → Option ByteStr) :
    extract_saml_attrs environ env1 = extract_saml_attrs environ env2 := rfl

/-- C4: claim extraction reads exactly the three mandatory headers and the
optional query component: it fails exactly when at least one of the three
required headers is absent; the `url` attribute defaults to the empty
string when the query component is absent and carries the query component
otherwise; and when extraction fails the module body emits no redirect
(so no token is computed and no redirect URL is produced). -/
theorem claim_extraction_spec (environ env : String → Option ByteStr)
    (adata : Option ByteStr) (now : Nat) (rand : List Nat) :
    (extract_saml_attrs environ env = none ↔
      environ "HTTP_EPPN" = none ∨ environ "HTTP_DISPLAYNAME" = none ∨
        environ "HTTP_AFFILIATION" = none) ∧
    (∀ sa, extract_saml_attrs environ env = some sa →
      environ "QUERY_STRING" = none → getAttr sa "url" = some []) ∧
    (∀ sa, extract_saml_attrs environ env = some sa →
      ∀ q, environ "QUERY_STRING" = some q → getAttr sa "url" = some q) ∧
    (extract_saml_attrs environ env = none →
      main_run environ adata now rand = none) := by
  cases he : environ "HTTP_EPPN" <;>
    cases hd : environ "HTTP_DISPLAYNAME" <;>
      cases ha : environ "HTTP_AFFILIATION" <;>
        refine ⟨?_, ?_, ?_, ?_⟩ <;>
          simp [extract_saml_attrs, main_run, getAttr, he, hd, ha]
  · intro hq
    simp [hq]
  · intro q hq
    simp [hq]

/-- C4 witness: with an empty environment the module body emits nothing,
and with the sample environment the `url` attribute carries the query
component. -/
theorem claim_extraction_spec_witness :
    main_run emptyEnviron (some (bytes "s3cr3t")) 0 [] = none ∧
    getAttr [("eppn", bytes "jdoe@example.edu"),
      ("displayName", bytes "Jane Doe"), ("affiliation", bytes "staff"),
      ("url", bytes "q=1")] "url" = some (bytes "q=1") :=
  ⟨(claim_extraction_spec emptyEnviron emptyEnviron (some (bytes "s3cr3t"))
      0 []).2.2.2 (by decide),
   (claim_extraction_spec testEnviron testEnviron none 0 []).2.2.1
     [("eppn", bytes "jdoe@example.edu"), ("displayName", bytes "Jane Doe"),
      ("affiliation", bytes "staff"), ("url", bytes "q=1")] (by decide)
     (bytes "q=1") (by decide)⟩

/-- C6: `add_instance_attrs` adds exactly the two fields `time` and
`salt`: `time` is the wall clock rendered as a fixed-point decimal string
with six fractional digits, `salt` is the `SALT_LENGTH` (four) random
bytes rendered as lowercase hexadecimal, hence an eight-character
lowercase hex string; every other key is untouched. -/
theorem instance_attrs_spec (attrs : Attrs) (now : Nat) (rand : List Nat)
    (hlen : rand.length = SALT_LENGTH) (hbytes : ∀ b ∈ rand, b < 256) :
    add_instance_attrs now rand attrs =
      setAttr (setAttr attrs "time" (formatTimeF now)) "salt"
        (hexEncode rand) ∧
    getAttr (add_instance_attrs now rand attrs) "time" =
      some (formatTimeF now) ∧
    getAttr (add_instance_attrs now rand attrs) "salt" =
      some (hexEncode rand) ∧
    (hexEncode rand).length = 8 ∧
    (∀ c ∈ hexEncode rand, isLowerHexByte c = true) ∧
    formatTimeF now = natToDec (now / 1000000) ++ 46 :: pad6 (now % 1000000) ∧
    (pad6 (now % 1000000)).length = 6 ∧
    (∀ c ∈ pad6 (now % 1000000), isDigitByte c = true) ∧
    (∀ c ∈ natToDec (now / 1000000), isDigitByte c = true) ∧
    natToDec (now / 1000000) ≠ [] ∧
    (∀ k, k ≠ "time" → k ≠ "salt" →
      getAttr (add_instance_attrs now rand attrs) k = getAttr attrs k) := by
  refine ⟨rfl, ?_, ?_, ?_, hexEncode_lower rand hbytes, rfl,
    pad6_length _ (by omega), pad6_digits _, natToDec_digits _,
    natToDec_ne_nil _, ?_⟩
  · show getAttr (setAttr (setAttr attrs "time" (formatTimeF now)) "salt"
      (hexEncode rand)) "time" = some (formatTimeF now)
    rw [getAttr_setAttr_ne _ _ _ _ (by decide), getAttr_setAttr_self]
  · show getAttr (setAttr (setAttr attrs "time" (formatTimeF now)) "salt"
      (hexEncode rand)) "salt" = some (hexEncode rand)
    rw [getAttr_setAttr_self]
  · rw [hexEncode_length, hlen]
    rfl
  · intro k h1 h2
    show getAttr (setAttr (setAttr attrs "time" (formatTimeF now)) "salt"
      (hexEncode rand)) k = getAttr attrs k
    rw [getAttr_setAttr_ne _ _ _ _ (Ne.symm h2),
      getAttr_setAttr_ne _ _ _ _ (Ne.symm h1)]

/-- C6 witness: concrete clock and salt bytes produce the expected stored
values, of the expected shape. -/
theorem instance_attrs_spec_witness :
    getAttr (add_instance_attrs 1700000000123456 [222, 173, 190, 239] [])
      "time" = some (formatTimeF 1700000000123456) ∧
    getAttr (add_instance_attrs 1700000000123456 [222, 173, 190, 239] [])
      "salt" = some (hexEncode [222, 173, 190, 239]) ∧
    (hexEncode [222, 173, 190, 239]).length = 8 ∧
    hexEncode [222, 173, 190, 239] = bytes "deadbeef" ∧
    formatTimeF 1700000000123456 = bytes "1700000000.123456" := by
  have h := instance_attrs_spec [] 1700000000123456 [222, 173, 190, 239]
    (by decide) (by decide)
  exact ⟨h.2.1, h.2.2.1, h.2.2.2.1, by decide, by decide⟩

/-- C1: for every attribute map holding `time`, `salt`, `eppn`,
`displayName` and `affiliation`, and every readable secret, `add_token`
stores under `token` the lowercase-hexadecimal SHA-256 digest of the
canonical string interpolating, in fixed order, time, salt, secret, eppn,
displayName and affiliation separated by the literal spacer and ending in
the fixed literal suffix; reading the stored token back yields exactly the
digest recomputed over the same ordered fields and suffix. -/
theorem token_derivation_spec (adata : Option ByteStr) (secret : ByteStr)
    (attrs : Attrs) (tme slt e d a : ByteStr)
    (hsec : read_secret adata = some secret)
    (ht : getAttr attrs "time" = some tme)
    (hs : getAttr attrs "salt" = some slt)
    (he : getAttr attrs "eppn" = some e)
    (hd : getAttr attrs "displayName" = some d)
    (ha : getAttr attrs "affiliation" = some a) :
    add_token adata attrs =
      some (setAttr attrs "token"
        (hexEncode (sha256 (canonicalString tme slt secret e d a)))) ∧
    canonicalString tme slt secret e d a =
      tme ++ bytes " :: " ++ slt ++ bytes " :: " ++ secret ++
        bytes " :: " ++ e ++ bytes " :: " ++ d ++ bytes " :: " ++ a ++
        bytes " :: ISLE ROCKS!" ∧
    (∀ out, add_token adata attrs = some out →
      getAttr out "token" =
        some (hexEncode (sha256 (canonicalString tme slt secret e d a)))) ∧
    (∀ c ∈ hexEncode (sha256 (canonicalString tme slt secret e d a)),
      isLowerHexByte c = true) ∧
    (hexEncode (sha256 (canonicalString tme slt secret e d a))).length =
      64 := by
  have h1 : add_token adata attrs =
      some (setAttr attrs "token"
        (hexEncode (sha256 (canonicalString tme slt secret e d a)))) := by
    unfold add_token
    rw [hsec, ht, hs, he, hd, ha]
  refine ⟨h1, rfl, ?_, hexEncode_lower _ (sha256_bytes_lt _), ?_⟩
  · intro out hout
    rw [h1] at hout
    injection hout with hout
    rw [← hout, getAttr_setAttr_self]
  · rw [hexEncode_length, sha256_length]

/-- C1 witness: the sample attribute map and secret produce exactly the
token stored by `add_token`. -/
theorem token_derivation_spec_witness :
    read_secret (some (bytes "s3cr3t")) = some (bytes "s3cr3t") ∧
    add_token (some (bytes "s3cr3t")) sampleClaims =
      some (setAttr sampleClaims "token"
        (hexEncode (sha256 (canonicalString (bytes "1700000000.000000")
          (bytes "deadbeef") (bytes "s3cr3t") (bytes "jdoe@example.edu")
          (bytes "Jane Doe") (bytes "staff"))))) :=
  ⟨by decide,
   (token_derivation_spec (some (bytes "s3cr3t")) (bytes "s3cr3t")
     sampleClaims (bytes "1700000000.000000") (bytes "deadbeef")
     (bytes "jdoe@example.edu") (bytes "Jane Doe") (bytes "staff")
     (by decide) (by decide) (by decide) (by decide) (by decide)
     (by decide)).1⟩

/-- C8: the secret never appears in the output encoding: no stage of the
pipeline ever stores a `secret` key in the attribute map, and the query
string is a function of the seven named parameters alone, so the secret
value itself is not a parameter of the redirect URL. -/
theorem secret_confinement_spec :
    (∀ environ env sa, extract_saml_attrs environ env = some sa →
      getAttr sa "secret" = none) ∧
    (∀ now rand attrs, getAttr attrs "secret" = none →
      getAttr (add_instance_attrs now rand attrs) "secret" = none) ∧
    (∀ adata attrs out, getAttr attrs "secret" = none →
      add_token adata attrs = some out → getAttr out "secret" = none) ∧
    (∀ attrs out, getAttr attrs "secret" = none →
      encode_attributes attrs = some out →
        getAttr out "secret" = none) ∧
    (∀ a1 a2 : Attrs,
      getAttr a1 "token" = getAttr a2 "token" →
      getAttr a1 "time" = getAttr a2 "time" →
      getAttr a1 "salt" = getAttr a2 "salt" →
      getAttr a1 "eppn" = getAttr a2 "eppn" →
      getAttr a1 "displayName" = getAttr a2 "displayName" →
      getAttr a1 "affiliation" = getAttr a2 "affiliation" →
      getAttr a1 "url" = getAttr a2 "url" →
      query_string a1 = query_string a2) := by
  refine ⟨?_, ?_, ?_, ?_, ?_⟩
  · intro environ env sa hsa
    unfold extract_saml_attrs at hsa
    rcases hE : environ "HTTP_EPPN" with _ | e <;>
      rcases hD : environ "HTTP_DISPLAYNAME" with _ | d <;>
        rcases hA : environ "HTTP_AFFILIATION" with _ | a <;>
          rw [hE, hD, hA] at hsa <;> simp at hsa
    rw [← hsa]
    simp [getAttr]
  · intro now rand attrs h
    show getAttr (setAttr (setAttr attrs "time" (formatTimeF now)) "salt"
      (hexEncode rand)) "secret" = none
    rw [getAttr_setAttr_ne _ _ _ _ (by decide),
      getAttr_setAttr_ne _ _ _ _ (by decide), h]
  · intro adata attrs out h htok
    unfold add_token at htok
    rcases hx1 : read_secret adata with _ | s1 <;>
      rcases hx2 : getAttr attrs "time" with _ | s2 <;>
        rcases hx3 : getAttr attrs "salt" with _ | s3 <;>
          rcases hx4 : getAttr attrs "eppn" with _ | s4 <;>
            rcases hx5 : getAttr attrs "displayName" with _ | s5 <;>
              rcases hx6 : getAttr attrs "affiliation" with _ | s6 <;>
                rw [hx1, hx2, hx3, hx4, hx5, hx6] at htok <;> simp at htok
    rw [← htok, getAttr_setAttr_ne _ _ _ _ (by decide), h]
  · intro attrs out h henc
    unfold encode_attributes at henc
    rcases hy1 : getAttr attrs "eppn" with _ | s1 <;>
      rcases hy2 : getAttr attrs "displayName" with _ | s2 <;>
        rcases hy3 : getAttr attrs "affiliation" with _ | s3 <;>
          rcases hy4 : getAttr attrs "url" with _ | s4 <;>
            rcases hy5 : getAttr attrs "salt" with _ | s5 <;>
              rcases hy6 : getAttr attrs "token" with _ | s6 <;>
                rw [hy1, hy2, hy3, hy4, hy5, hy6] at henc <;> simp at henc
    rw [← henc, getAttr_setAttr_ne _ _ _ _ (by decide),
      getAttr_setAttr_ne _ _ _ _ (by decide),
      getAttr_setAttr_ne _ _ _ _ (by decide),
      getAttr_setAttr_ne _ _ _ _ (by decide),
      getAttr_setAttr_ne _ _ _ _ (by decide),
      getAttr_setAttr_ne _ _ _ _ (by decide), h]
  · intro a1 a2 h1 h2 h3 h4 h5 h6 h7
    unfold query_string
    rw [h1, h2, h3, h4, h5, h6, h7]

/-- C8 witness: the extracted sample map holds no secret key, and the
query string does not change when a map differs outside the seven
parameters. -/
theorem secret_confinement_spec_witness :
    getAttr [("eppn", bytes "jdoe@example.edu"),
      ("displayName", bytes "Jane Doe"), ("affiliation", bytes "staff"),
      ("url", bytes "q=1")] "secret" = none ∧
    query_string sampleFull = query_string sampleFullExtra :=
  ⟨secret_confinement_spec.1 testEnviron testEnviron _ (by decide),
   secret_confinement_spec.2.2.2.2 sampleFull sampleFullExtra (by decide)
     (by decide) (by decide) (by decide) (by decide) (by decide)
     (by decide)⟩

/-- C3: `encode_attributes` URL-safe base64 encodes (alphabet with the
minus and underscore bytes, padding retained) exactly the four fields
`eppn`, `displayName`, `affiliation` and `url`, leaves `salt`, `token`
and `time` unchanged, and decoding the encoding of any byte string
recovers it exactly. -/
theorem encode_attributes_spec (attrs : Attrs) (e d a u slt tok : ByteStr)
    (he : getAttr attrs "eppn" = some e)
    (hd : getAttr attrs "displayName" = some d)
    (ha : getAttr attrs "affiliation" = some a)
    (hu : getAttr attrs "url" = some u)
    (hs : getAttr attrs "salt" = some slt)
    (ht : getAttr attrs "token" = some tok) :
    (encode_attributes attrs).isSome = true ∧
    (∀ out, encode_attributes attrs = some out →
      getAttr out "eppn" = some (b64encode e) ∧
      getAttr out "displayName" = some (b64encode d) ∧
      getAttr out "affiliation" = some (b64encode a) ∧
      getAttr out "url" = some (b64encode u) ∧
      getAttr out "salt" = getAttr attrs "salt" ∧
      getAttr out "token" = getAttr attrs "token" ∧
      getAttr out "time" = getAttr attrs "time" ∧
      (∀ k, k ≠ "eppn" → k ≠ "displayName" → k ≠ "affiliation" →
        k ≠ "url" → getAttr out k = getAttr attrs k)) ∧
    (∀ bs : ByteStr, (∀ b ∈ bs, b < 256) →
      b64decode (b64encode bs) = bs) := by
  have hout : encode_attributes attrs =
      some (setAttr (setAttr (setAttr (setAttr (setAttr (setAttr attrs
        "eppn" (b64encode e))
        "displayName" (b64encode d))
        "affiliation" (b64encode a))
        "url" (b64encode u))
        "salt" slt)
        "token" tok) := by
    unfold encode_attributes
    rw [he, hd, ha, hu, hs, ht]
  refine ⟨by rw [hout]; rfl, ?_, fun bs hb => b64_roundtrip bs hb⟩
  intro out h
  rw [hout] at h
  injection h with h
  subst h
  refine ⟨?_, ?_, ?_, ?_, ?_, ?_, ?_, ?_⟩
  · rw [getAttr_setAttr_ne _ _ _ _ (by decide),
      getAttr_setAttr_ne _ _ _ _ (by decide),
      getAttr_setAttr_ne _ _ _ _ (by decide),
      getAttr_setAttr_ne _ _ _ _ (by decide),
      getAttr_setAttr_ne _ _ _ _ (by decide), getAttr_setAttr_self]
  · rw [getAttr_setAttr_ne _ _ _ _ (by decide),
      getAttr_setAttr_ne _ _ _ _ (by decide),
      getAttr_setAttr_ne _ _ _ _ (by decide),
      getAttr_setAttr_ne _ _ _ _ (by decide), getAttr_setAttr_self]
  · rw [getAttr_setAttr_ne _ _ _ _ (by decide),
      getAttr_setAttr_ne _ _ _ _ (by decide),
      getAttr_setAttr_ne _ _ _ _ (by decide), getAttr_setAttr_self]
  · rw [getAttr_setAttr_ne _ _ _ _ (by decide),
      getAttr_setAttr_ne _ _ _ _ (by decide), getAttr_setAttr_self]
  · rw [getAttr_setAttr_ne _ _ _ _ (by decide), getAttr_setAttr_self, hs]
  · rw [getAttr_setAttr_self, ht]
  · rw [getAttr_setAttr_ne _ _ _ _ (by decide),
      getAttr_setAttr_ne _ _ _ _ (by decide),
      getAttr_setAttr_ne _ _ _ _ (by decide),
      getAttr_setAttr_ne _ _ _ _ (by decide),
      getAttr_setAttr_ne _ _ _ _ (by decide),
      getAttr_setAttr_ne _ _ _ _ (by decide)]
  · intro k h1 h2 h3 h4
    by_cases hk1 : k = "token"
    · subst hk1
      rw [getAttr_setAttr_self, ht]
    by_cases hk2 : k = "salt"
    · subst hk2
      rw [getAttr_setAttr_ne _ _ _ _ (by decide), getAttr_setAttr_self, hs]
    rw [getAttr_setAttr_ne _ _ _ _ (Ne.symm hk1),
      getAttr_setAttr_ne _ _ _ _ (Ne.symm hk2),
      getAttr_setAttr_ne _ _ _ _ (Ne.symm h4),
      getAttr_setAttr_ne _ _ _ _ (Ne.symm h3),
      getAttr_setAttr_ne _ _ _ _ (Ne.symm h2),
      getAttr_setAttr_ne _ _ _ _ (Ne.symm h1)]

/-- C3 witness: the sample map encodes to the expected values, and a
sample round trip recovers the input. -/
theorem encode_attributes_spec_witness :
    getAttr encodedSample "eppn" = some (b64encode (bytes "jdoe@example.edu")) ∧
    getAttr encodedSample "displayName" = some (b64encode (bytes "Jane Doe")) ∧
    getAttr encodedSample "salt" = getAttr sampleFull "salt" ∧
    b64decode (b64encode (bytes "Jane Doe")) = bytes "Jane Doe" := by
  have h := encode_attributes_spec sampleFull (bytes "jdoe@example.edu")
    (bytes "Jane Doe") (bytes "staff") (bytes "q=1") (bytes "deadbeef")
    (bytes "ab12") (by decide) (by decide) (by decide) (by decide)
    (by decide) (by decide)
  have h2 := h.2.1 encodedSample (by decide)
  exact ⟨h2.1, h2.2.1, h2.2.2.2.2.1, h.2.2 (bytes "Jane Doe") (by decide)⟩

/-- C2: for a fully populated, encoded attribute map the assembled
redirect URL is exactly the fixed base target, a question mark, and the
seven parameters in the order token, time, salt, eppn, name, affil, url,
each value embedded verbatim (hence non-empty exactly when the stored
input is non-empty); the query string splits on ampersands into exactly
those seven components. -/
theorem redirect_assembly_spec (attrs : Attrs) (tok tme slt e d a u : ByteStr)
    (htok : getAttr attrs "token" = some tok)
    (htme : getAttr attrs "time" = some tme)
    (hslt : getAttr attrs "salt" = some slt)
    (he : getAttr attrs "eppn" = some e)
    (hd : getAttr attrs "displayName" = some d)
    (ha : getAttr attrs "affiliation" = some a)
    (hu : getAttr attrs "url" = some u)
    (ftok : ∀ c ∈ tok, c ≠ 38) (ftme : ∀ c ∈ tme, c ≠ 38)
    (fslt : ∀ c ∈ slt, c ≠ 38) (fe : ∀ c ∈ e, c ≠ 38)
    (fd : ∀ c ∈ d, c ≠ 38) (fa : ∀ c ∈ a, c ≠ 38)
    (fu : ∀ c ∈ u, c ≠ 38) :
    query_string attrs =
      some (bytes "token=" ++ tok ++ bytes "&time=" ++ tme ++
        bytes "&salt=" ++ slt ++ bytes "&eppn=" ++ e ++ bytes "&name=" ++
        d ++ bytes "&affil=" ++ a ++ bytes "&url=" ++ u) ∧
    redirect_url attrs =
      some (bytes REDIRECT_TARGET ++ bytes "?" ++
        (bytes "token=" ++ tok ++ bytes "&time=" ++ tme ++
         bytes "&salt=" ++ slt ++ bytes "&eppn=" ++ e ++ bytes "&name=" ++
         d ++ bytes "&affil=" ++ a ++ bytes "&url=" ++ u)) ∧
    splitAmp (bytes "token=" ++ tok ++ bytes "&time=" ++ tme ++
        bytes "&salt=" ++ slt ++ bytes "&eppn=" ++ e ++ bytes "&name=" ++
        d ++ bytes "&affil=" ++ a ++ bytes "&url=" ++ u) =
      [bytes "token=" ++ tok, bytes "time=" ++ tme, bytes "salt=" ++ slt,
       bytes "eppn=" ++ e, bytes "name=" ++ d, bytes "affil=" ++ a,
       bytes "url=" ++ u] := by
  have hq : query_string attrs =
      some (bytes "token=" ++ tok ++ bytes "&time=" ++ tme ++
        bytes "&salt=" ++ slt ++ bytes "&eppn=" ++ e ++ bytes "&name=" ++
        d ++ bytes "&affil=" ++ a ++ bytes "&url=" ++ u) := by
    unfold query_string
    rw [htok, htme, hslt, he, hd, ha, hu]
  refine ⟨hq, ?_,
    splitAmp_query _ _ _ _ _ _ _ ftok ftme fslt fe fd fa fu⟩
  unfold redirect_url
  rw [hq]
  rfl

/-- C2 witness: the sample fully populated map assembles into the
expected redirect URL. -/
theorem redirect_assembly_spec_witness :
    redirect_url sampleFull =
      some (bytes REDIRECT_TARGET ++ bytes "?" ++
        (bytes "token=" ++ bytes "ab12" ++ bytes "&time=" ++
         bytes "1700000000.000000" ++ bytes "&salt=" ++ bytes "deadbeef" ++
         bytes "&eppn=" ++ bytes "jdoe@example.edu" ++ bytes "&name=" ++
         bytes "Jane Doe" ++ bytes "&affil=" ++ bytes "staff" ++
         bytes "&url=" ++ bytes "q=1")) :=
  (redirect_assembly_spec sampleFull (bytes "ab12")
    (bytes "1700000000.000000") (bytes "deadbeef")
    (bytes "jdoe@example.edu") (bytes "Jane Doe") (bytes "staff")
    (bytes "q=1") (by decide) (by decide) (by decide) (by decide)
    (by decide) (by decide) (by decide) (by decide) (by decide)
    (by decide) (by decide) (by decide) (by decide) (by decide)).2.1

/-- C5 counterexample: an all-whitespace `adata` resource reads back as
the empty secret, yet the pipeline still computes a token and emits a
redirect — the script never rejects an empty secret. -/
theorem secret_loading_counterexample :
    read_secret (some (bytes " \n")) = some [] ∧
    (main_run testEnviron (some (bytes " \n")) 1700000000123456
      [222, 173, 190, 239]).isSome = true := by
  constructor
  · decide
  · decide

/-- C5 (amended): secret loading reads the whole resource, strips
surrounding whitespace, and returns the result as an opaque string; it
fails fatally, before any token is computed and with no redirect
emitted, exactly when the resource cannot be read — an empty (or
all-whitespace) secret is accepted and processing continues. -/
theorem secret_loading_amended_spec (adata : Option ByteStr)
    (raw : ByteStr) (environ : String → Option ByteStr) (now : Nat)
    (rand : List Nat) :
    (read_secret adata = none ↔ adata = none) ∧
    read_secret (some raw) = some (pyStrip raw) ∧
    (adata = none → main_run environ adata now rand = none) := by
  refine ⟨?_, rfl, ?_⟩
  · cases adata <;> simp [read_secret]
  · intro h
    subst h
    unfold main_run
    cases extract_saml_attrs environ environ <;>
      simp [add_token, read_secret]

/-- C5 witness: a concrete padded secret is stripped, and an unreadable
resource yields no redirect. -/
theorem secret_loading_amended_spec_witness :
    read_secret (some (bytes "  s3cr3t\n")) = some (bytes "s3cr3t") ∧
    main_run testEnviron none 0 [] = none :=
  ⟨by rw [(secret_loading_amended_spec (some (bytes "  s3cr3t\n"))
      (bytes "  s3cr3t\n") testEnviron 0 []).2.1]; decide,
   (secret_loading_amended_spec none [] testEnviron 0 []).2.2 rfl⟩

/-- C9: for arbitrary byte-string claim inputs, the pipeline produces a
redirect URL that is the fixed target plus a query string whose four
encoded values use only the URL-safe base64 alphabet (with padding),
whose time value uses only digits and the dot, and which splits on
ampersands into exactly the seven key-value components in order,
whatever reserved characters the raw inputs contained. -/
theorem query_alphabet_spec (e d a u raw : ByteStr) (now : Nat)
    (rand : List Nat)
    (hre : ∀ b ∈ e, b < 256) (hrd : ∀ b ∈ d, b < 256)
    (hra : ∀ b ∈ a, b < 256) (hru : ∀ b ∈ u, b < 256)
    (hrand : ∀ b ∈ rand, b < 256) :
    ∃ q : ByteStr,
      main_run (mkEnviron e d a u) (some raw) now rand =
        some (bytes REDIRECT_TARGET ++ bytes "?" ++ q) ∧
      (∀ c ∈ b64encode e, isB64Byte c = true) ∧
      (∀ c ∈ b64encode d, isB64Byte c = true) ∧
      (∀ c ∈ b64encode a, isB64Byte c = true) ∧
      (∀ c ∈ b64encode u, isB64Byte c = true) ∧
      (∀ c ∈ formatTimeF now, isTimeByte c = true) ∧
      splitAmp q =
        [bytes "token=" ++ hexEncode (sha256 (canonicalString
           (formatTimeF now) (hexEncode rand) (pyStrip raw) e d a)),
         bytes "time=" ++ formatTimeF now,
         bytes "salt=" ++ hexEncode rand,
         bytes "eppn=" ++ b64encode e,
         bytes "name=" ++ b64encode d,
         bytes "affil=" ++ b64encode a,
         bytes "url=" ++ b64encode u] ∧
      (splitAmp q).length = 7 := by
  have hfree1 : ∀ c ∈ hexEncode (sha256 (canonicalString (formatTimeF now)
      (hexEncode rand) (pyStrip raw) e d a)), c ≠ 38 :=
    fun c hc => lowerHex_ne_amp c (hexEncode_lower _ (sha256_bytes_lt _) c hc)
  have hfree2 : ∀ c ∈ formatTimeF now, c ≠ 38 :=
    fun c hc => timeByte_ne_amp c (formatTimeF_bytes now c hc)
  have hfree3 : ∀ c ∈ hexEncode rand, c ≠ 38 :=
    fun c hc => lowerHex_ne_amp c (hexEncode_lower _ hrand c hc)
  have hfree4 : ∀ c ∈ b64encode e, c ≠ 38 :=
    fun c hc => b64Byte_ne_amp c (b64encode_alphabet e hre c hc)
  have hfree5 : ∀ c ∈ b64encode d, c ≠ 38 :=
    fun c hc => b64Byte_ne_amp c (b64encode_alphabet d hrd c hc)
  have hfree6 : ∀ c ∈ b64encode a, c ≠ 38 :=
    fun c hc => b64Byte_ne_amp c (b64encode_alphabet a hra c hc)
  have hfree7 : ∀ c ∈ b64encode u, c ≠ 38 :=
    fun c hc => b64Byte_ne_amp c (b64encode_alphabet u hru c hc)
  have hsplit := splitAmp_query _ _ _ _ _ _ _ hfree1 hfree2 hfree3 hfree4
    hfree5 hfree6 hfree7
  refine ⟨_, ?_, b64encode_alphabet e hre, b64encode_alphabet d hrd,
    b64encode_alphabet a hra, b64encode_alphabet u hru,
    formatTimeF_bytes now, hsplit, by rw [hsplit]; rfl⟩
  simp [main_run, extract_saml_attrs, mkEnviron, add_instance_attrs,
    add_token, encode_attributes, query_string, redirect_url, setAttr,
    getAttr, read_secret]

/-- C9 witness: the concrete sample run emits a redirect URL. -/
theorem query_alphabet_spec_witness :
    (main_run (mkEnviron (bytes "jdoe@example.edu") (bytes "Jane Doe")
      (bytes "staff") (bytes "q=1")) (some (bytes "s3cr3t"))
      1700000000123456 [222, 173, 190, 239]).isSome = true := by
  obtain ⟨q, hq, -⟩ := query_alphabet_spec (bytes "jdoe@example.edu")
    (bytes "Jane Doe") (bytes "staff") (bytes "q=1") (bytes "s3cr3t")
    1700000000123456 [222, 173, 190, 239] (by decide) (by decide)
    (by decide) (by decide) (by decide)
  rw [hq]
  rfl

end Isle
